import Mathlib

/-!
Verification of `sandman/model.py`: the `Model` mixin that derives a RESTful
resource representation (endpoint names, primary keys, hyperlinks, and
dictionary serialization) from an ORM table descriptor.

The shallow embedding models:
  * Python attribute values reaching this code (`None`, ints, strings, bools,
    and `decimal.Decimal` instances) as the inductive type `Value`;
  * the SQLAlchemy table descriptor (`__table__`) as the structure `Table`,
    with its ordered column list, per-column primary-key flags, and its
    foreign-key collection;
  * a resource instance as an association list from attribute names to values
    (`getattr` with a default is lookup-with-default, `setattr` prepends a
    binding that shadows older ones);
  * fallible operations (`primary_key`, which raises `IndexError` on a table
    with no primary-key column, and everything downstream of it) as
    `Option`-valued functions.
-/

set_option autoImplicit false

namespace Sandman

/-- A Python value as it can appear in a column attribute or an incoming
dictionary: `none` is Python `None`; `decimal isZero s` abstracts a
`decimal.Decimal` object by whether it compares equal to zero (its truthiness)
and by its `str()` rendering `s`. -/
inductive Value where
  | none : Value
  | bool : Bool → Value
  | int : Int → Value
  | str : String → Value
  | decimal : Bool → String → Value
deriving DecidableEq

/-- Python truthiness (`if value:`) for the values modelled here: `None` is
falsy, `0` is falsy, the empty string is falsy, a `Decimal` is falsy exactly
when it is zero. -/
def truthy : Value → Bool
  | Value.none => false
  | Value.bool b => b
  | Value.int n => n != 0
  | Value.str s => s != ""
  | Value.decimal isZero _ => !isZero

/-- Python `str()` of a value, as used by `'/{}/{}'.format(...)` and by the
`Decimal`-to-string normalization in `as_dict`. -/
def pyStr : Value → String
  | Value.none => "None"
  | Value.bool b => if b then "True" else "False"
  | Value.int n => toString n
  | Value.str s => s
  | Value.decimal _ s => s

/-- One column of the table descriptor: its name, whether it carries the
`primary_key` flag, and the lowercase-able string form of its database type
(`str(column.type)`). -/
structure Column where
  name : String
  primary_key : Bool
  typeName : String
deriving DecidableEq

/-- One entry of `__table__.foreign_keys`. In SQLAlchemy, `foreign_key.parent`
is the local column holding the reference and `foreign_key.column` is the
referenced remote column; the code in `links` only ever reads
`foreign_key.column.name` and `foreign_key.column.table.name`. -/
structure ForeignKey where
  /-- `foreign_key.parent.name`: the name of the local column declaring the
  reference. -/
  parentName : String
  /-- `foreign_key.column.name`: the name of the referenced (remote) column. -/
  columnName : String
  /-- `foreign_key.column.table.name`: the name of the referenced (remote)
  table. -/
  tableName : String
deriving DecidableEq

/-- The table descriptor `__table__`: table name, ordered column list
(`columns.keys()` is the name projection, `primary_key.columns` is the
ordered sublist of columns flagged as primary key), and the foreign-key
collection in its iteration order. -/
structure Table where
  name : String
  columns : List Column
  foreignKeys : List ForeignKey
deriving DecidableEq

/-- A resource instance: its attribute bindings. `setattr` prepends, so lookup
finds the most recent binding first. -/
abbrev Instance := List (String × Value)

/-- An incoming dictionary for `from_dict` / `replace`. -/
abbrev Dict := List (String × Value)

/-- Python `getattr(obj, name, default)`. -/
def getattrD (i : Instance) (name : String) (dflt : Value) : Value :=
  (i.lookup name).getD dflt

/-- Python `setattr(obj, name, value)`. -/
def setattr (i : Instance) (name : String) (v : Value) : Instance :=
  (name, v) :: i

/-- Python `dictionary.get(key, None)`. -/
def dictGet (d : Dict) (k : String) : Value :=
  (d.lookup k).getD Value.none

/-- Python `str.lower()`: lowercase every character. -/
def pyLower (s : String) : String :=
  String.mk (s.data.map Char.toLower)

/-- Python `s.endswith(suffix)`: the character sequence of `suffix` is a
suffix of that of `s`. -/
def pyEndsWith (s suffix : String) : Bool :=
  suffix.data.isSuffixOf s.data

/-- `Model.endpoint`: the table name lowercased, with `'s'` appended when the
lowercased name does not already end in `'s'`. -/
def endpoint (t : Table) : String :=
  let e := pyLower t.name
  if pyEndsWith e "s" then e else e ++ "s"

/-- `Model.primary_key`: `cls.__table__.primary_key.columns.values()[0].name`.
`primary_key.columns` is the ordered sublist of columns flagged as primary
key; indexing `[0]` on an empty sequence raises `IndexError`, modelled by
`Option.none`. -/
def primary_key (t : Table) : Option String :=
  ((t.columns.filter fun c => c.primary_key).head?).map (·.name)

/-- `Model.resource_uri`:
`'/{}/{}'.format(self.endpoint(), getattr(self, self.primary_key(), None))`.
It fails (propagates `IndexError`) exactly when `primary_key` does. -/
def resource_uri (t : Table) (i : Instance) : Option String :=
  (primary_key t).map fun pk =>
    "/" ++ endpoint t ++ "/" ++ pyStr (getattrD i pk Value.none)

/-- A hyperlink `{'rel': ..., 'uri': ...}` as built by `Model.links`. -/
structure Link where
  rel : String
  uri : String
deriving DecidableEq

/-- The value the `links` loop reads for a foreign key:
`column = foreign_key.column.name; column_value = getattr(self, column, None)`.
Note that the attribute is looked up under the name of the referenced
(remote) column, not under the local column holding the reference. -/
def fkValue (i : Instance) (fk : ForeignKey) : Value :=
  getattrD i fk.columnName Value.none

/-- The URI of a related link:
`'/{}/{}'.format(foreign_key.column.table.name, column_value)`. -/
def fkUri (i : Instance) (fk : ForeignKey) : String :=
  "/" ++ fk.tableName ++ "/" ++ pyStr (fkValue i fk)

/-- The related link appended for one foreign key whose value is truthy. -/
def fkLink (i : Instance) (fk : ForeignKey) : Link :=
  { rel := "related", uri := fkUri i fk }

/-- The related-links loop of `Model.links` over a foreign-key list: for each
foreign key whose looked-up value is truthy, append its related link. -/
def relatedOf (i : Instance) : List ForeignKey → List Link
  | [] => []
  | fk :: rest =>
      if truthy (fkValue i fk) then fkLink i fk :: relatedOf i rest
      else relatedOf i rest

/-- The related links of an instance, in the descriptor's foreign-key order. -/
def relatedLinks (t : Table) (i : Instance) : List Link :=
  relatedOf i t.foreignKeys

/-- `Model.links`: the related links followed by the single
`{'rel': 'self', 'uri': self.resource_uri()}` link; fails (propagates the
`IndexError` of `primary_key`) exactly when `resource_uri` does. -/
def links (t : Table) (i : Instance) : Option (List Link) :=
  (resource_uri t i).map fun uri =>
    relatedLinks t i ++ [{ rel := "self", uri := uri }]

/-- A value of the representation dictionary produced by `as_dict`: either a
column value or the `_links` entry's list of links. -/
inductive RepValue where
  | val : Value → RepValue
  | links : List Link → RepValue
deriving DecidableEq

/-- The `Decimal` normalization of `as_dict`:
`if isinstance(result_dict[column], Decimal): result_dict[column] = str(result_dict[column])`. -/
def decimalToStr : Value → Value
  | Value.decimal isZero s => Value.str (pyStr (Value.decimal isZero s))
  | v => v

/-- `Model.as_dict`: one entry per declared column (in declaration order)
holding `getattr(self, column, None)` with `Decimal` values turned into their
string form, followed by the `_links` entry holding `links()`; fails exactly
when `links` does. -/
def as_dict (t : Table) (i : Instance) : Option (List (String × RepValue)) :=
  (links t i).map fun ls =>
    (t.columns.map fun c =>
      (c.name, RepValue.val (decimalToStr (getattrD i c.name Value.none))))
      ++ [("_links", RepValue.links ls)]

/-- The column loop of `Model.from_dict`: for each declared column,
`value = dictionary.get(column, None)`, and only when `value` is truthy,
`setattr(self, column, value)`. -/
def from_dict_loop (d : Dict) : List Column → Instance → Instance
  | [], i => i
  | c :: rest, i =>
      from_dict_loop d rest
        (if truthy (dictGet d c.name) then setattr i c.name (dictGet d c.name) else i)

/-- `Model.from_dict`. -/
def from_dict (t : Table) (d : Dict) (i : Instance) : Instance :=
  from_dict_loop d t.columns i

/-- The reset loop of `Model.replace`: `setattr(self, column, None)` for
every declared column. -/
def reset_columns : List Column → Instance → Instance
  | [], i => i
  | c :: rest, i => reset_columns rest (setattr i c.name Value.none)

/-- `Model.replace`: reset every declared column to `None`, then apply
`from_dict`. -/
def replace (t : Table) (d : Dict) (i : Instance) : Instance :=
  from_dict t d (reset_columns t.columns i)

/-- Whether some declared foreign key lives on the named local column
(`ForeignKey.parentName`); used to state which declared columns are
foreign-key columns. -/
def isForeignColumn (t : Table) (name : String) : Bool :=
  t.foreignKeys.any fun fk => fk.parentName == name

/-- The foreign key of the spec's worked example: local column `author_id`
referencing column `id` of table `author`. -/
def bookFk : ForeignKey :=
  { parentName := "author_id", columnName := "id", tableName := "author" }

/-- Concrete table from the spec's worked example: table `book` with columns
`id` (primary key), `title`, `author_id`, and the foreign key
`author_id → author.id`. -/
def bookTable : Table :=
  { name := "book"
    columns :=
      [ { name := "id", primary_key := true, typeName := "INTEGER" }
      , { name := "title", primary_key := false, typeName := "VARCHAR" }
      , { name := "author_id", primary_key := false, typeName := "INTEGER" } ]
    foreignKeys := [ bookFk ] }

/-- Concrete instance from the spec's worked example:
`{id: 5, title: "Dune", author_id: 3}`. -/
def bookInstance : Instance :=
  [ ("id", Value.int 5), ("title", Value.str "Dune"), ("author_id", Value.int 3) ]

/-- The link list the code produces for `bookTable` / `bookInstance`: the
related link reads the attribute named `id` (the referenced column's name),
so its URI carries the book's own id `5`, not `author_id = 3`. -/
def bookLinks : List Link :=
  [ { rel := "related", uri := "/author/5" }, { rel := "self", uri := "/books/5" } ]

/-- A table whose lowercased name already ends in `'s'`. -/
def busTable : Table :=
  { name := "Bus"
    columns := [ { name := "id", primary_key := true, typeName := "INTEGER" } ]
    foreignKeys := [] }

/-- A table that declares no primary-key column. -/
def noPkTable : Table :=
  { name := "thing"
    columns := [ { name := "label", primary_key := false, typeName := "VARCHAR" } ]
    foreignKeys := [] }

/-- A table with an exact-decimal `price` column: table `item` with columns
`id` (primary key), `price`, `note`, and no foreign keys. -/
def itemTable : Table :=
  { name := "item"
    columns :=
      [ { name := "id", primary_key := true, typeName := "INTEGER" }
      , { name := "price", primary_key := false, typeName := "NUMERIC" }
      , { name := "note", primary_key := false, typeName := "VARCHAR" } ]
    foreignKeys := [] }

/-- An instance of `itemTable` holding a `Decimal("19.99")` price; the `note`
attribute is unset. -/
def itemInstance : Instance :=
  [ ("id", Value.int 7), ("price", Value.decimal false "19.99") ]

/-- The representation dictionary `as_dict` produces for `itemInstance`. -/
def itemRep : List (String × RepValue) :=
  [ ("id", RepValue.val (Value.int 7))
  , ("price", RepValue.val (Value.str "19.99"))
  , ("note", RepValue.val Value.none)
  , ("_links", RepValue.links [ { rel := "self", uri := "/items/7" } ]) ]

/-- An incoming dictionary whose keys are exactly the non-foreign columns of
`bookTable` (`id` and `title`), with truthy values. -/
def bookDict : Dict :=
  [ ("id", Value.int 5), ("title", Value.str "Dune") ]

/-- C2: for every table name `T`, `endpoint()` is `lowercase(T) ++ "s"` when
`lowercase(T)` does not end in `"s"`, and `lowercase(T)` unchanged when it
does. -/
theorem endpoint_spec (t : Table) :
    (pyEndsWith (pyLower t.name) "s" = false → endpoint t = pyLower t.name ++ "s") ∧
    (pyEndsWith (pyLower t.name) "s" = true → endpoint t = pyLower t.name) := by
  constructor <;> intro h <;> simp [endpoint, h]

/-- Witness for C2 on the concrete tables `book` (no trailing `s`) and `Bus`
(lowercases to `bus`, trailing `s` kept). -/
theorem endpoint_spec_witness :
    endpoint bookTable = "books" ∧ endpoint busTable = "bus" := by
  constructor
  · have h := (endpoint_spec bookTable).1 (by decide)
    simpa using h
  · have h := (endpoint_spec busTable).2 (by decide)
    simpa using h

/-- C9: `primary_key()` returns the name of the first declared primary-key
column; on a table with no primary-key column the indexing fails (modelled by
`Option.none`), and under the precondition that some primary-key column exists
that failure branch is unreachable. -/
theorem primary_key_spec (t : Table) :
    (∀ c, (t.columns.filter fun col => col.primary_key).head? = some c →
        primary_key t = some c.name) ∧
    ((t.columns.filter fun col => col.primary_key) = [] → primary_key t = none) ∧
    ((t.columns.filter fun col => col.primary_key) ≠ [] → primary_key t ≠ none) := by
  refine ⟨fun c hc => ?_, fun h => ?_, fun h => ?_⟩
  · simp [primary_key, hc]
  · simp [primary_key, h]
  · cases hh : (t.columns.filter fun col => col.primary_key) with
    | nil => exact absurd hh h
    | cons c rest => simp [primary_key, hh]

/-- Witness for C9: `book` has first primary-key column `id`; `noPkTable`
declares none, so `primary_key` fails. -/
theorem primary_key_spec_witness :
    primary_key bookTable = some "id" ∧ primary_key noPkTable = none := by
  constructor
  · have h := (primary_key_spec bookTable).1
      { name := "id", primary_key := true, typeName := "INTEGER" } (by decide)
    simpa using h
  · exact (primary_key_spec noPkTable).2.1 (by decide)

/-- C3: `resource_uri()` is `"/" ++ endpoint() ++ "/" ++ str(v)` for the
primary-key attribute value `v`; when the attribute is unset the URI is still
produced, with the literal `"None"` segment. -/
theorem resource_uri_spec (t : Table) (i : Instance) (pk : String)
    (h : primary_key t = some pk) :
    resource_uri t i = some ("/" ++ endpoint t ++ "/" ++ pyStr (getattrD i pk Value.none)) ∧
    (i.lookup pk = none →
      resource_uri t i = some ("/" ++ endpoint t ++ "/" ++ "None")) := by
  constructor
  · simp [resource_uri, h]
  · intro hu
    simp [resource_uri, h, getattrD, hu, pyStr]

/-- Witness for C3: the spec example instance gives `/books/5`; a fresh
instance with no attributes gives `/books/None`. -/
theorem resource_uri_spec_witness :
    resource_uri bookTable bookInstance =
      some ("/" ++ endpoint bookTable ++ "/" ++ pyStr (getattrD bookInstance "id" Value.none)) ∧
    resource_uri bookTable [] = some ("/" ++ endpoint bookTable ++ "/" ++ "None") :=
  ⟨(resource_uri_spec bookTable bookInstance "id" (by decide)).1,
   (resource_uri_spec bookTable [] "id" (by decide)).2 (by decide)⟩

/-- Every link produced by the related-links loop has `rel = "related"`. -/
theorem relatedOf_rel (i : Instance) (fks : List ForeignKey) :
    ∀ l ∈ relatedOf i fks, l.rel = "related" := by
  induction fks with
  | nil => intro l hl; simp [relatedOf] at hl
  | cons fk rest ih =>
    intro l hl
    simp only [relatedOf] at hl
    split at hl
    · rcases List.mem_cons.mp hl with h | h
      · subst h; rfl
      · exact ih l h
    · exact ih l hl

/-- The related-links loop produces one link per truthy foreign key. -/
theorem relatedOf_length (i : Instance) (fks : List ForeignKey) :
    (relatedOf i fks).length = (fks.filter fun k => truthy (fkValue i k)).length := by
  induction fks with
  | nil => rfl
  | cons fk rest ih =>
    by_cases h : truthy (fkValue i fk) <;>
      simp [relatedOf, h, List.filter_cons, ih]

/-- No link with URI `u` is produced when no foreign key yields URI `u`. -/
theorem relatedOf_filter_uri_nil (i : Instance) (u : String) (fks : List ForeignKey)
    (h : ∀ k ∈ fks, fkUri i k ≠ u) :
    (relatedOf i fks).filter (fun l => l.rel == "related" && l.uri == u) = [] := by
  induction fks with
  | nil => rfl
  | cons fk rest ih =>
    have hfk : fkUri i fk ≠ u := h fk (List.mem_cons_self fk rest)
    have hrest : ∀ k ∈ rest, fkUri i k ≠ u := fun k hk => h k (List.mem_cons_of_mem _ hk)
    by_cases ht : truthy (fkValue i fk) <;>
      simp [relatedOf, ht, List.filter_cons, fkLink, hfk, ih hrest]

/-- A truthy foreign key whose URI differs from every other foreign key's URI
contributes exactly one matching link to the related-links loop's output. -/
theorem relatedOf_count_one (i : Instance) (fks : List ForeignKey) (fk : ForeignKey)
    (hmem : fk ∈ fks) (hnd : (fks.map (fkUri i)).Nodup)
    (hv : truthy (fkValue i fk) = true) :
    ((relatedOf i fks).filter fun l => l.rel == "related" && l.uri == fkUri i fk).length = 1 := by
  induction fks with
  | nil => simp at hmem
  | cons k rest ih =>
    rw [List.map_cons, List.nodup_cons] at hnd
    obtain ⟨hk_notin, hnd_rest⟩ := hnd
    rcases List.mem_cons.mp hmem with rfl | hmem_rest
    · have hnil : (relatedOf i rest).filter
          (fun l => l.rel == "related" && l.uri == fkUri i fk) = [] := by
        apply relatedOf_filter_uri_nil
        intro k hk hku
        exact hk_notin (hku ▸ List.mem_map_of_mem (fkUri i) hk)
      simp [relatedOf, hv, List.filter_cons, fkLink, hnil]
    · have hne : fkUri i k ≠ fkUri i fk := by
        intro h
        exact hk_notin (h ▸ List.mem_map_of_mem (fkUri i) hmem_rest)
      by_cases ht : truthy (fkValue i k) <;>
        simp [relatedOf, ht, List.filter_cons, fkLink, hne, ih hmem_rest hnd_rest]

/-- C1 counterexample: on the spec's own worked example (table `book`,
foreign key `author_id → author.id`, instance
`{id: 5, title: "Dune", author_id: 3}`) the local column `author_id` holds
the truthy value `3`, yet `links()` contains no link with URI `/author/3`:
the code looks the attribute up under the referenced column's name (`id`)
and produces `/author/5` instead. -/
theorem links_related_counterexample :
    truthy (getattrD bookInstance "author_id" Value.none) = true ∧
    links bookTable bookInstance = some bookLinks ∧
    (bookLinks.filter fun l => l.rel == "related" && l.uri == "/author/3").length = 0 := by
  refine ⟨by decide, by decide, by decide⟩

/-- C1 (amended): for every foreign key declared on the table, writing `v`
for the instance attribute named by the foreign key's referenced (remote)
column (`None` when unset): when `v` is truthy, `links()` contains exactly
one link with `rel = "related"` and `uri = "/" ++ remote_table ++ "/" ++
str v` (given that distinct foreign keys yield distinct link URIs), and
foreign keys whose `v` is not truthy contribute no link: the number of
related links equals the number of foreign keys with truthy `v`. -/
theorem links_related_amended (t : Table) (i : Instance) (ls : List Link)
    (hls : links t i = some ls) (fk : ForeignKey) (hfk : fk ∈ t.foreignKeys)
    (hv : truthy (fkValue i fk) = true)
    (hnd : (t.foreignKeys.map (fkUri i)).Nodup) :
    ((ls.filter fun l => l.rel == "related" && l.uri == fkUri i fk).length = 1) ∧
    ((ls.filter fun l => l.rel == "related").length =
      (t.foreignKeys.filter fun k => truthy (fkValue i k)).length) := by
  obtain ⟨uri, huri, rfl⟩ := Option.map_eq_some'.mp hls
  constructor
  · rw [List.filter_append]
    have hself : (([{ rel := "self", uri := uri }] : List Link).filter
        fun l => l.rel == "related" && l.uri == fkUri i fk) = [] := by
      simp
    rw [hself, List.append_nil]
    exact relatedOf_count_one i t.foreignKeys fk hfk hnd hv
  · rw [List.filter_append]
    have hself : (([{ rel := "self", uri := uri }] : List Link).filter
        fun l => l.rel == "related") = [] := by
      simp
    have hrel : (relatedLinks t i).filter (fun l => l.rel == "related") =
        relatedLinks t i := by
      rw [List.filter_eq_self]
      intro l hl
      simp [relatedOf_rel i t.foreignKeys l hl]
    rw [hself, List.append_nil, hrel]
    exact relatedOf_length i t.foreignKeys

/-- Witness for the amended C1 on the worked example: exactly one related
link with the URI the code builds (`/author/5`), and one related link for
the one truthy foreign key. -/
theorem links_related_amended_witness :
    ((bookLinks.filter fun l => l.rel == "related" && l.uri == fkUri bookInstance bookFk).length = 1) ∧
    ((bookLinks.filter fun l => l.rel == "related").length =
      (bookTable.foreignKeys.filter fun k => truthy (fkValue bookInstance k)).length) :=
  links_related_amended bookTable bookInstance bookLinks (by decide) bookFk
    (by decide) (by decide) (by decide)

/-- C4: `links()` always holds exactly one entry with `rel = "self"`, whose
URI is `resource_uri()`, and every related link precedes it. -/
theorem links_self_spec (t : Table) (i : Instance) (ls : List Link)
    (h : links t i = some ls) :
    (∀ l ∈ relatedLinks t i, l.rel = "related") ∧
    ((ls.filter fun l => l.rel == "self").length = 1) ∧
    (∃ uri, resource_uri t i = some uri ∧
      ls = relatedLinks t i ++ [{ rel := "self", uri := uri }]) := by
  obtain ⟨uri, huri, rfl⟩ := Option.map_eq_some'.mp h
  refine ⟨fun l hl => relatedOf_rel i t.foreignKeys l hl, ?_, ⟨uri, huri, rfl⟩⟩
  rw [List.filter_append]
  have h1 : (relatedLinks t i).filter (fun l => l.rel == "self") = [] := by
    rw [List.filter_eq_nil_iff]
    intro l hl
    simp [relatedOf_rel i t.foreignKeys l hl]
  rw [h1]
  simp

/-- Witness for C4 on the worked example: the produced list holds exactly one
self link. -/
theorem links_self_spec_witness :
    (bookLinks.filter fun l => l.rel == "self").length = 1 :=
  (links_self_spec bookTable bookInstance bookLinks (by decide)).2.1

/-- Unfolding lemma for `List.lookup` on a cons cell. -/
theorem lookup_cons (a k : String) (b : Value) (es : List (String × Value)) :
    ((k, b) :: es).lookup a = if a == k then some b else es.lookup a := by
  cases h : a == k <;> simp [List.lookup, h]

/-- A successful lookup exhibits a member of the association list. -/
theorem mem_of_lookup_some {d : List (String × Value)} {k : String} {v : Value}
    (h : d.lookup k = some v) : (k, v) ∈ d := by
  induction d with
  | nil => simp [List.lookup] at h
  | cons p rest ih =>
    obtain ⟨a, b⟩ := p
    rw [lookup_cons] at h
    split at h
    · rename_i hk
      injection h with h
      subst h
      have hk2 : k = a := by simpa using hk
      subst hk2
      exact List.mem_cons_self _ _
    · exact List.mem_cons_of_mem _ (ih h)

/-- Reading back an attribute after `setattr`. -/
theorem getattrD_setattr (i : Instance) (n m : String) (v dflt : Value) :
    getattrD (setattr i n v) m dflt = if m = n then v else getattrD i m dflt := by
  by_cases h : m = n <;> simp [getattrD, setattr, lookup_cons, h]

/-- Master lemma for the `from_dict` loop: the attribute named `n` ends up
holding `dictionary.get(n, None)` when some processed column is named `n` and
that value is truthy, and keeps its prior value otherwise. -/
theorem from_dict_loop_getattr (d : Dict) (n : String) (cols : List Column) (i : Instance) :
    getattrD (from_dict_loop d cols i) n Value.none =
      if (cols.any fun c => c.name == n) && truthy (dictGet d n)
      then dictGet d n
      else getattrD i n Value.none := by
  induction cols generalizing i with
  | nil => simp [from_dict_loop]
  | cons c rest ih =>
    rw [from_dict_loop, ih]
    by_cases hc : c.name = n
    · subst hc
      by_cases ht : truthy (dictGet d c.name)
      · by_cases hr : (rest.any fun c2 => c2.name == c.name) <;>
          simp [hr, ht, getattrD_setattr, List.any_cons]
      · simp [ht, List.any_cons]
    · have hcn : (c.name == n) = false := by simp [hc]
      by_cases ht : truthy (dictGet d c.name) <;>
        simp [ht, hcn, List.any_cons, getattrD_setattr, Ne.symm hc]

/-- The `from_dict` loop writes no binding for a name carried by none of the
processed columns. -/
theorem from_dict_loop_lookup (d : Dict) (n : String) :
    ∀ (cols : List Column) (i : Instance), (∀ c ∈ cols, c.name ≠ n) →
      (from_dict_loop d cols i).lookup n = i.lookup n := by
  intro cols
  induction cols with
  | nil => intro i _; rfl
  | cons c rest ih =>
    intro i h
    have hc : c.name ≠ n := h c (List.mem_cons_self c rest)
    have hrest : ∀ c2 ∈ rest, c2.name ≠ n := fun c2 hc2 => h c2 (List.mem_cons_of_mem _ hc2)
    rw [from_dict_loop, ih _ hrest]
    by_cases ht : truthy (dictGet d c.name)
    · have hne : (n == c.name) = false := by simp [Ne.symm hc]
      simp [ht, setattr, lookup_cons, hne]
    · simp [ht]

/-- After the reset loop of `replace`, every processed column reads `None`. -/
theorem reset_columns_getattr (cols : List Column) (i : Instance) (n : String) :
    getattrD (reset_columns cols i) n Value.none =
      if cols.any (fun c => c.name == n) then Value.none
      else getattrD i n Value.none := by
  induction cols generalizing i with
  | nil => simp [reset_columns]
  | cons c rest ih =>
    rw [reset_columns, ih]
    by_cases hc : c.name = n
    · subst hc
      by_cases hr : (rest.any fun c2 => c2.name == c.name) <;>
        simp [hr, getattrD_setattr, List.any_cons]
    · have hcn : (c.name == n) = false := by simp [hc]
      simp [hcn, List.any_cons, getattrD_setattr, Ne.symm hc]

/-- The `Decimal` normalization never leaves a `Decimal` value behind. -/
theorem decimalToStr_ne_decimal (v : Value) (z : Bool) (s : String) :
    decimalToStr v ≠ Value.decimal z s := by
  cases v <;> simp [decimalToStr, pyStr]

/-- C5: `as_dict()` holds one entry per declared column (with a `None`
placeholder for an unset attribute) plus the `_links` entry holding
`links()`; `Decimal` column values appear as their string form and never as
`Decimal` values. -/
theorem as_dict_spec (t : Table) (i : Instance) (r : List (String × RepValue))
    (h : as_dict t i = some r) :
    (r.map Prod.fst = t.columns.map (·.name) ++ ["_links"]) ∧
    (∀ c ∈ t.columns, i.lookup c.name = none → (c.name, RepValue.val Value.none) ∈ r) ∧
    (∃ ls, links t i = some ls ∧ ("_links", RepValue.links ls) ∈ r) ∧
    (∀ c ∈ t.columns, ∀ z s, getattrD i c.name Value.none = Value.decimal z s →
      (c.name, RepValue.val (Value.str s)) ∈ r) ∧
    (∀ k v, (k, RepValue.val v) ∈ r → ∀ z s, v ≠ Value.decimal z s) := by
  obtain ⟨ls, hls, rfl⟩ := Option.map_eq_some'.mp h
  refine ⟨?_, ?_, ⟨ls, hls, ?_⟩, ?_, ?_⟩
  · simp [List.map_map, Function.comp]
  · intro c hc hnone
    refine List.mem_append_left _ (List.mem_map.mpr ⟨c, hc, ?_⟩)
    simp [getattrD, hnone, decimalToStr]
  · exact List.mem_append_right _ (List.mem_cons_self _ _)
  · intro c hc z s hdec
    refine List.mem_append_left _ (List.mem_map.mpr ⟨c, hc, ?_⟩)
    rw [hdec]
    simp [decimalToStr, pyStr]
  · intro k v hmem z s hne
    rcases List.mem_append.mp hmem with hm | hm
    · obtain ⟨c, _, hceq⟩ := List.mem_map.mp hm
      have hv : RepValue.val (decimalToStr (getattrD i c.name Value.none)) = RepValue.val v :=
        congrArg Prod.snd hceq
      injection hv with hv
      exact decimalToStr_ne_decimal _ z s (hv.trans hne)
    · simp at hm

/-- Witness for C5 on `itemTable` / `itemInstance`: the unset `note` column
appears with a `None` placeholder and the `Decimal("19.99")` price appears as
the string `"19.99"`. -/
theorem as_dict_spec_witness :
    ("note", RepValue.val Value.none) ∈ itemRep ∧
    ("price", RepValue.val (Value.str "19.99")) ∈ itemRep :=
  ⟨(as_dict_spec itemTable itemInstance itemRep (by decide)).2.1
      { name := "note", primary_key := false, typeName := "VARCHAR" } (by decide) (by decide),
   (as_dict_spec itemTable itemInstance itemRep (by decide)).2.2.2.1
      { name := "price", primary_key := false, typeName := "NUMERIC" } (by decide)
      false "19.99" (by decide)⟩

/-- C6: for a dictionary whose keys are exactly the declared non-foreign
column names and whose values are all truthy, `from_dict` on a fresh instance
leaves every such attribute equal to the dictionary's value. -/
theorem from_dict_round_trip (t : Table) (d : Dict)
    (hkeys : d.map Prod.fst =
      ((t.columns.filter fun c => !isForeignColumn t c.name).map (·.name)))
    (htruthy : ∀ p ∈ d, truthy p.2 = true)
    (k : String) (v : Value) (hk : d.lookup k = some v) :
    getattrD (from_dict t d []) k Value.none = v := by
  have hmemd : (k, v) ∈ d := mem_of_lookup_some hk
  have hkey : k ∈ d.map Prod.fst := List.mem_map_of_mem Prod.fst hmemd
  rw [hkeys] at hkey
  obtain ⟨c, hcf, hcn⟩ := List.mem_map.mp hkey
  have hc : c ∈ t.columns := List.mem_of_mem_filter hcf
  have hany : (t.columns.any fun col => col.name == k) = true :=
    List.any_eq_true.mpr ⟨c, hc, by simp [hcn]⟩
  have hget : dictGet d k = v := by simp [dictGet, hk]
  have ht : truthy (dictGet d k) = true := by rw [hget]; exact htruthy (k, v) hmemd
  rw [from_dict, from_dict_loop_getattr, hany, ht]
  simpa using hget

/-- Witness for C6: `bookDict` has keys exactly `id`, `title` (the
non-foreign columns of `book`) with truthy values; after `from_dict` on a
fresh instance, `title` holds `"Dune"`. -/
theorem from_dict_round_trip_witness :
    getattrD (from_dict bookTable bookDict []) "title" Value.none = Value.str "Dune" :=
  from_dict_round_trip bookTable bookDict (by decide) (by decide)
    "title" (Value.str "Dune") (by decide)

/-- C7: after `replace(d)`, a declared column absent from `d` or falsy in `d`
is `None`, a declared column with a truthy value in `d` holds that value, and
`replace({})` sets every declared column to `None`. -/
theorem replace_spec (t : Table) (d : Dict) (i : Instance) (c : Column)
    (hc : c ∈ t.columns) :
    ((d.lookup c.name = none ∨ ∃ v, d.lookup c.name = some v ∧ truthy v = false) →
      getattrD (replace t d i) c.name Value.none = Value.none) ∧
    (∀ v, d.lookup c.name = some v → truthy v = true →
      getattrD (replace t d i) c.name Value.none = v) ∧
    getattrD (replace t [] i) c.name Value.none = Value.none := by
  have hany : (t.columns.any fun col => col.name == c.name) = true :=
    List.any_eq_true.mpr ⟨c, hc, by simp⟩
  refine ⟨fun h => ?_, fun v hv htv => ?_, ?_⟩
  · have ht : truthy (dictGet d c.name) = false := by
      rcases h with h | ⟨v, hv, hf⟩
      · simp [dictGet, h, truthy]
      · simp [dictGet, hv, hf]
    rw [replace, from_dict, from_dict_loop_getattr]
    simp [ht, reset_columns_getattr, hany]
  · have hget : dictGet d c.name = v := by simp [dictGet, hv]
    rw [replace, from_dict, from_dict_loop_getattr]
    simp [hany, hget, htv]
  · rw [replace, from_dict, from_dict_loop_getattr]
    simp [dictGet, List.lookup, truthy, reset_columns_getattr, hany]

/-- Witness for C7 on `bookTable` / `bookInstance` with the dictionary
`{title: "Leto"}`: `author_id` (absent) becomes `None`, `title` becomes
`"Leto"`, and `replace({})` clears `id`. -/
theorem replace_spec_witness :
    getattrD (replace bookTable [("title", Value.str "Leto")] bookInstance)
      "author_id" Value.none = Value.none ∧
    getattrD (replace bookTable [("title", Value.str "Leto")] bookInstance)
      "title" Value.none = Value.str "Leto" ∧
    getattrD (replace bookTable [] bookInstance) "id" Value.none = Value.none :=
  ⟨(replace_spec bookTable [("title", Value.str "Leto")] bookInstance
      { name := "author_id", primary_key := false, typeName := "INTEGER" } (by decide)).1
      (Or.inl (by decide)),
   (replace_spec bookTable [("title", Value.str "Leto")] bookInstance
      { name := "title", primary_key := false, typeName := "VARCHAR" } (by decide)).2.1
      (Value.str "Leto") (by decide) (by decide),
   (replace_spec bookTable [] bookInstance
      { name := "id", primary_key := true, typeName := "INTEGER" } (by decide)).2.2⟩

/-- C8: `from_dict` leaves a declared column untouched when its key is absent
from the dictionary or maps to a falsy value. -/
theorem from_dict_frame (t : Table) (d : Dict) (i : Instance) (c : Column)
    (_hc : c ∈ t.columns)
    (h : d.lookup c.name = none ∨ ∃ v, d.lookup c.name = some v ∧ truthy v = false) :
    getattrD (from_dict t d i) c.name Value.none = getattrD i c.name Value.none := by
  have ht : truthy (dictGet d c.name) = false := by
    rcases h with h | ⟨v, hv, hf⟩
    · simp [dictGet, h, truthy]
    · simp [dictGet, hv, hf]
  rw [from_dict, from_dict_loop_getattr]
  simp [ht]

/-- Witness for C8: updating `title` with the falsy empty string leaves the
attribute at its prior value `"Dune"`. -/
theorem from_dict_frame_witness :
    getattrD (from_dict bookTable [("title", Value.str "")] bookInstance)
      "title" Value.none = getattrD bookInstance "title" Value.none :=
  from_dict_frame bookTable [("title", Value.str "")] bookInstance
    { name := "title", primary_key := false, typeName := "VARCHAR" } (by decide)
    (Or.inr ⟨Value.str "", by decide, by decide⟩)

/-- C10: `from_dict` assigns only declared column names; a name that is not a
declared column keeps its binding (in particular, dictionary keys that are
not declared columns set no attribute and raise no error). -/
theorem from_dict_ignores_undeclared (t : Table) (d : Dict) (i : Instance) (n : String)
    (hn : n ∉ t.columns.map (·.name)) :
    (from_dict t d i).lookup n = i.lookup n := by
  apply from_dict_loop_lookup
  intro c hc hcn
  exact hn (hcn ▸ List.mem_map_of_mem (·.name) hc)

/-- Witness for C10: a dictionary key `publisher`, not a declared column of
`book`, sets no attribute. -/
theorem from_dict_ignores_undeclared_witness :
    (from_dict bookTable [("publisher", Value.int 9)] bookInstance).lookup "publisher" =
      bookInstance.lookup "publisher" :=
  from_dict_ignores_undeclared bookTable [("publisher", Value.int 9)] bookInstance
    "publisher" (by decide)

end Sandman
